import Mathlib

/-!
Verification development for the MEXC volume-top-10 trading bot.

The Python sources (`bot.py`, `config.py`, `db.py`) are shallowly embedded:
pure numeric code is translated to functions over `ℚ` (Python floats become
exact rationals; overflow and rounding are out of scope of the claims
checked here), stateful code becomes explicit state passing, and fallible
code returns `Option`/`Except`.  Environment-variable reads
(`os.getenv`, `get_stoploss_threshold()`) are modelled as explicit
parameters.  Timestamps are rationals counting seconds.
-/

namespace MexcAlphaBot

/-- Python builtin `max(a, b)`: returns `a` when `b <= a`, else `b`
(the first argument on ties, exactly as CPython does). -/
def pyMax (a b : ℚ) : ℚ := if b ≤ a then a else b

/-- Python builtin `min(a, b)`: returns `a` when `a <= b`, else `b`. -/
def pyMin (a b : ℚ) : ℚ := if a ≤ b then a else b

theorem pyMax_eq_max (a b : ℚ) : pyMax a b = max a b := by
  unfold pyMax
  rcases le_total b a with h | h
  · rw [if_pos h, max_eq_left h]
  · rcases eq_or_lt_of_le h with rfl | hlt
    · simp
    · rw [if_neg (not_le.mpr hlt), max_eq_right h]

theorem pyMin_eq_min (a b : ℚ) : pyMin a b = min a b := by
  unfold pyMin
  rcases le_total a b with h | h
  · rw [if_pos h, min_eq_left h]
  · rcases eq_or_lt_of_le h with rfl | hlt
    · simp
    · rw [if_neg (not_le.mpr hlt), min_eq_right h]

namespace Config

/-- `config.calculate_dynamic_stoploss(entry_price, current_price, hours_held,
base_threshold)` (config.py lines 232-266).  The `base_threshold is None`
default (an environment read via `get_stoploss_threshold()`) is modelled by
always passing the threshold explicitly. -/
def calculate_dynamic_stoploss (entry_price current_price hours_held base_threshold : ℚ) : ℚ :=
  let stoploss_price := entry_price * (1 - base_threshold)
  if entry_price < current_price then
    let profit_percent := current_price / entry_price - 1
    let time_factor := pyMin (hours_held / 24) (4 / 5)
    let profit_lock_percent := profit_percent * time_factor
    let dynamic_stoploss :=
      entry_price * (1 + profit_lock_percent - base_threshold * (1 - time_factor))
    pyMax stoploss_price dynamic_stoploss
  else
    stoploss_price

/-- `config.get_check_interval(time_to_exit)` (config.py lines 77-106), with
the three environment-variable reads modelled as the explicit parameters
`base_interval`, `quick_interval`, `time_threshold`. -/
def get_check_interval (time_to_exit base_interval quick_interval time_threshold : ℚ) : ℚ :=
  if time_to_exit ≤ time_threshold * (1 / 2) then
    quick_interval
  else if time_to_exit ≤ time_threshold then
    let ratio := (time_to_exit - time_threshold * (1 / 2)) / (time_threshold * (1 / 2))
    quick_interval + ratio * (base_interval - quick_interval) * (1 / 2)
  else if time_to_exit ≤ time_threshold * 2 then
    let ratio := (time_to_exit - time_threshold) / time_threshold
    base_interval * (1 / 2) + ratio * base_interval * (1 / 2)
  else
    base_interval

end Config

namespace Bot

/-- `bot.calculate_dynamic_stoploss(entry_price, current_price, hours_held)`
(bot.py lines 185-210).  The call `get_stoploss_threshold()` (an environment
read) is modelled as the extra parameter `stoploss_threshold`. -/
def calculate_dynamic_stoploss (stoploss_threshold entry_price current_price hours_held : ℚ) : ℚ :=
  let base_threshold := stoploss_threshold
  let stoploss_price := entry_price * (1 - base_threshold)
  if entry_price < current_price then
    let profit_percent := current_price / entry_price - 1
    let time_factor := pyMin (hours_held / 24) (4 / 5)
    let profit_lock_percent := profit_percent * time_factor
    let dynamic_stoploss :=
      entry_price * (1 + profit_lock_percent - base_threshold * (1 - time_factor))
    pyMax stoploss_price dynamic_stoploss
  else
    stoploss_price

end Bot

end MexcAlphaBot

namespace MexcAlphaBot

/-- Claim C2: for entryPrice > 0, currentPrice > entryPrice, baseThreshold in
(0,1) and hoursHeld in [0,48], the dynamic stop-loss equals
max(entryPrice*(1-baseThreshold),
    entryPrice*(1 + profitPercent*timeFactor - baseThreshold*(1-timeFactor)))
with profitPercent = currentPrice/entryPrice - 1 and
timeFactor = min(hoursHeld/24, 0.8); it is always at least the static floor
entryPrice*(1-baseThreshold), is non-decreasing in hoursHeld, and at
entryPrice=100, baseThreshold=0.05, currentPrice=110, hoursHeld=24 it
equals 107. -/
theorem C2_dynamic_stoploss_spec (entry current base h1 : ℚ)
    (hentry : 0 < entry) (hcur : entry < current)
    (hb0 : 0 < base) (hb1 : base < 1) (hh0 : 0 ≤ h1) (hh48 : h1 ≤ 48) :
    Config.calculate_dynamic_stoploss entry current h1 base
        = max (entry * (1 - base))
            (entry * (1 + (current / entry - 1) * min (h1 / 24) (4 / 5)
               - base * (1 - min (h1 / 24) (4 / 5)))) ∧
    entry * (1 - base) ≤ Config.calculate_dynamic_stoploss entry current h1 base ∧
    (∀ h2, h1 ≤ h2 → h2 ≤ 48 →
      Config.calculate_dynamic_stoploss entry current h1 base ≤
        Config.calculate_dynamic_stoploss entry current h2 base) ∧
    Config.calculate_dynamic_stoploss 100 110 24 (1 / 20) = 107 := by
  have heq : ∀ t : ℚ, Config.calculate_dynamic_stoploss entry current t base
      = max (entry * (1 - base))
          (entry * (1 + (current / entry - 1) * min (t / 24) (4 / 5)
             - base * (1 - min (t / 24) (4 / 5)))) := by
    intro t
    unfold Config.calculate_dynamic_stoploss
    rw [if_pos hcur, pyMax_eq_max, pyMin_eq_min]
  have hprofit : 0 < current / entry - 1 := by
    have : 1 < current / entry := (one_lt_div hentry).mpr hcur
    linarith
  refine ⟨heq h1, ?_, ?_, ?_⟩
  · rw [heq h1]; exact le_max_left _ _
  · intro h2 h12 _
    rw [heq h1, heq h2]
    refine max_le_max le_rfl ?_
    have hT : min (h1 / 24) (4 / 5) ≤ min (h2 / 24) (4 / 5) :=
      min_le_min (by linarith) le_rfl
    have hcoef : 0 ≤ current / entry - 1 + base := by linarith
    have hkey : (current / entry - 1) * min (h1 / 24) (4 / 5)
          - base * (1 - min (h1 / 24) (4 / 5))
        ≤ (current / entry - 1) * min (h2 / 24) (4 / 5)
          - base * (1 - min (h2 / 24) (4 / 5)) := by
      nlinarith [mul_le_mul_of_nonneg_left hT hcoef]
    have := mul_le_mul_of_nonneg_left (by linarith : (1 : ℚ)
        + (current / entry - 1) * min (h1 / 24) (4 / 5)
        - base * (1 - min (h1 / 24) (4 / 5))
        ≤ 1 + (current / entry - 1) * min (h2 / 24) (4 / 5)
        - base * (1 - min (h2 / 24) (4 / 5))) (le_of_lt hentry)
    linarith
  · norm_num [Config.calculate_dynamic_stoploss, pyMax, pyMin]

/-- Witness for C2 at entryPrice=100, currentPrice=110, baseThreshold=1/20,
hoursHeld=24, second point 36. -/
theorem C2_dynamic_stoploss_spec_witness :
    Config.calculate_dynamic_stoploss 100 110 24 (1 / 20)
        = max (100 * (1 - 1 / 20))
            (100 * (1 + (110 / 100 - 1) * min (24 / 24) (4 / 5)
               - (1 / 20) * (1 - min (24 / 24) (4 / 5)))) ∧
    (100 : ℚ) * (1 - 1 / 20) ≤ Config.calculate_dynamic_stoploss 100 110 24 (1 / 20) ∧
    Config.calculate_dynamic_stoploss 100 110 24 (1 / 20) ≤
      Config.calculate_dynamic_stoploss 100 110 36 (1 / 20) := by
  have h := C2_dynamic_stoploss_spec 100 110 (1 / 20) 24
    (by norm_num) (by norm_num) (by norm_num) (by norm_num) (by norm_num) (by norm_num)
  exact ⟨h.1, h.2.1, h.2.2.1 36 (by norm_num) (by norm_num)⟩

end MexcAlphaBot

namespace MexcAlphaBot

/-- Claim C9: the monitor module (bot.py) and the strategy module (config.py)
contain two independent implementations of the dynamic stop-loss; they are
extensionally equal once the monitor's version is run with the configured
stop-loss threshold that `get_stoploss_threshold()` would return. -/
theorem C9_stoploss_implementations_agree
    (threshold entry current hours : ℚ) :
    Bot.calculate_dynamic_stoploss threshold entry current hours
      = Config.calculate_dynamic_stoploss entry current hours threshold := by
  unfold Bot.calculate_dynamic_stoploss Config.calculate_dynamic_stoploss
  rfl

end MexcAlphaBot

namespace MexcAlphaBot

/-- Counterexample to claim C3: with baseInterval=5, quickInterval=1,
threshold=1 (0 < quick <= base, threshold > 0) the next-check-interval
function is NOT monotone: it drops from 3 at hoursToExit=1 to 11/4 at
hoursToExit=11/10; and with quickInterval=4, baseInterval=5 the value 11/4
at hoursToExit=11/10 is below quickInterval. -/
theorem C3_check_interval_counterexample :
    Config.get_check_interval 1 5 1 1 = 3 ∧
    Config.get_check_interval (11 / 10) 5 1 1 = 11 / 4 ∧
    Config.get_check_interval (11 / 10) 5 1 1 < Config.get_check_interval 1 5 1 1 ∧
    Config.get_check_interval (11 / 10) 5 4 1 = 11 / 4 ∧
    Config.get_check_interval (11 / 10) 5 4 1 < 4 := by
  norm_num [Config.get_check_interval]

/-- Claim C3 (amended): for every fixed configuration with
0 < quickInterval <= baseInterval and threshold > 0, the next-check-interval
function always lies within [min(quickInterval, baseInterval/2),
baseInterval]; it is monotone non-decreasing on hoursToExit <= threshold and
monotone non-decreasing on hoursToExit > threshold, but may drop (by up to
quickInterval/2) when hoursToExit crosses the threshold boundary, and on
that upper branch its value can fall below quickInterval (down to
baseInterval/2). -/
theorem C3_check_interval_amended (b q T : ℚ)
    (hq : 0 < q) (hqb : q ≤ b) (hT : 0 < T) :
    (∀ t, min q (b * (1 / 2)) ≤ Config.get_check_interval t b q T ∧
      Config.get_check_interval t b q T ≤ b) ∧
    (∀ t1 t2, t1 ≤ t2 → t2 ≤ T →
      Config.get_check_interval t1 b q T ≤ Config.get_check_interval t2 b q T) ∧
    (∀ t1 t2, T < t1 → t1 ≤ t2 →
      Config.get_check_interval t1 b q T ≤ Config.get_check_interval t2 b q T) := by
  have hT2 : 0 < T * (1 / 2) := by linarith
  have hb : 0 < b := lt_of_lt_of_le hq hqb
  have e1 : ∀ t, t ≤ T * (1 / 2) → Config.get_check_interval t b q T = q := by
    intro t ht
    unfold Config.get_check_interval
    rw [if_pos ht]
  have e2 : ∀ t, T * (1 / 2) < t → t ≤ T → Config.get_check_interval t b q T
      = q + (t - T * (1 / 2)) / (T * (1 / 2)) * (b - q) * (1 / 2) := by
    intro t h1 h2
    unfold Config.get_check_interval
    rw [if_neg (not_le.mpr h1), if_pos h2]
  have e3 : ∀ t, T < t → t ≤ T * 2 → Config.get_check_interval t b q T
      = b * (1 / 2) + (t - T) / T * b * (1 / 2) := by
    intro t h1 h2
    unfold Config.get_check_interval
    rw [if_neg (by push_neg; linarith : ¬ t ≤ T * (1 / 2)),
      if_neg (not_le.mpr h1), if_pos h2]
  have e4 : ∀ t, T * 2 < t → Config.get_check_interval t b q T = b := by
    intro t h1
    unfold Config.get_check_interval
    rw [if_neg (by push_neg; linarith : ¬ t ≤ T * (1 / 2)),
      if_neg (by push_neg; linarith : ¬ t ≤ T), if_neg (not_le.mpr h1)]
  refine ⟨?_, ?_, ?_⟩
  · intro t
    rcases le_or_lt t (T * (1 / 2)) with h1 | h1
    · rw [e1 t h1]
      exact ⟨min_le_left _ _, hqb⟩
    · rcases le_or_lt t T with h2 | h2
      · rw [e2 t h1 h2]
        have hr0 : 0 ≤ (t - T * (1 / 2)) / (T * (1 / 2)) :=
          div_nonneg (by linarith) (le_of_lt hT2)
        have hr1 : (t - T * (1 / 2)) / (T * (1 / 2)) ≤ 1 :=
          (div_le_one hT2).mpr (by linarith)
        constructor
        · have h0 : 0 ≤ (t - T * (1 / 2)) / (T * (1 / 2)) * (b - q) * (1 / 2) := by
            have := mul_nonneg hr0 (by linarith : (0 : ℚ) ≤ b - q)
            linarith
          calc min q (b * (1 / 2)) ≤ q := min_le_left _ _
            _ ≤ _ := by linarith
        · nlinarith [mul_le_mul_of_nonneg_right hr1
            (by linarith : (0 : ℚ) ≤ (b - q) * (1 / 2))]
      · rcases le_or_lt t (T * 2) with h3 | h3
        · rw [e3 t h2 h3]
          have hr0 : 0 ≤ (t - T) / T := div_nonneg (by linarith) (le_of_lt hT)
          have hr1 : (t - T) / T ≤ 1 := (div_le_one hT).mpr (by linarith)
          constructor
          · have h0 : 0 ≤ (t - T) / T * b * (1 / 2) := by
              have := mul_nonneg hr0 (le_of_lt hb)
              linarith
            calc min q (b * (1 / 2)) ≤ b * (1 / 2) := min_le_right _ _
              _ ≤ _ := by linarith
          · nlinarith [mul_le_mul_of_nonneg_right hr1 (by linarith : (0 : ℚ) ≤ b * (1 / 2))]
        · rw [e4 t h3]
          exact ⟨le_trans (min_le_left _ _) hqb, le_rfl⟩
  · intro t1 t2 h12 h2T
    rcases le_or_lt t2 (T * (1 / 2)) with a2 | a2
    · rw [e1 t1 (by linarith), e1 t2 a2]
    · rcases le_or_lt t1 (T * (1 / 2)) with a1 | a1
      · rw [e1 t1 a1, e2 t2 a2 h2T]
        have hr0 : 0 ≤ (t2 - T * (1 / 2)) / (T * (1 / 2)) :=
          div_nonneg (by linarith) (le_of_lt hT2)
        have h0 : 0 ≤ (t2 - T * (1 / 2)) / (T * (1 / 2)) * (b - q) * (1 / 2) := by
          have := mul_nonneg hr0 (by linarith : (0 : ℚ) ≤ b - q)
          linarith
        linarith
      · rw [e2 t1 a1 (le_trans h12 h2T), e2 t2 a2 h2T]
        have hmono : (t1 - T * (1 / 2)) / (T * (1 / 2))
            ≤ (t2 - T * (1 / 2)) / (T * (1 / 2)) :=
          div_le_div_of_nonneg_right (by linarith) (le_of_lt hT2)
        nlinarith [mul_le_mul_of_nonneg_right hmono
          (by linarith : (0 : ℚ) ≤ (b - q) * (1 / 2))]
  · intro t1 t2 hT1 h12
    rcases le_or_lt t2 (T * 2) with a2 | a2
    · rw [e3 t1 hT1 (le_trans h12 a2), e3 t2 (lt_of_lt_of_le hT1 h12) a2]
      have hmono : (t1 - T) / T ≤ (t2 - T) / T :=
        div_le_div_of_nonneg_right (by linarith) (le_of_lt hT)
      nlinarith [mul_le_mul_of_nonneg_right hmono (by linarith : (0 : ℚ) ≤ b * (1 / 2))]
    · rcases le_or_lt t1 (T * 2) with a1 | a1
      · rw [e3 t1 hT1 a1, e4 t2 a2]
        have hr1 : (t1 - T) / T ≤ 1 := (div_le_one hT).mpr (by linarith)
        nlinarith [mul_le_mul_of_nonneg_right hr1 (by linarith : (0 : ℚ) ≤ b * (1 / 2))]
      · rw [e4 t1 a1, e4 t2 a2]

end MexcAlphaBot

namespace MexcAlphaBot

/-- Witness for C3 (amended) at baseInterval=5, quickInterval=1, threshold=1,
sampling the bounds at hoursToExit=3 and monotonicity at 1/4 <= 1/2 <= 1 and
at 1 < 3/2 <= 2. -/
theorem C3_check_interval_amended_witness :
    min (1 : ℚ) (5 * (1 / 2)) ≤ Config.get_check_interval 3 5 1 1 ∧
    Config.get_check_interval 3 5 1 1 ≤ 5 ∧
    Config.get_check_interval (1 / 4) 5 1 1 ≤ Config.get_check_interval (1 / 2) 5 1 1 ∧
    Config.get_check_interval (3 / 2) 5 1 1 ≤ Config.get_check_interval 2 5 1 1 := by
  have h := C3_check_interval_amended 5 1 1 (by norm_num) (by norm_num) (by norm_num)
  exact ⟨(h.1 3).1, (h.1 3).2,
    h.2.1 (1 / 4) (1 / 2) (by norm_num) (by norm_num),
    h.2.2 (3 / 2) 2 (by norm_num) (by norm_num)⟩

end MexcAlphaBot

namespace MexcAlphaBot

namespace DB

/-- Row of the `trades` table (db.py lines 13-35).  Numeric columns are
rationals, timestamps are rationals counting seconds, nullable columns are
`Option`.  `closed` is the 0/1 integer flag of the source schema. -/
structure Trade where
  symbol : String
  side : String
  qty : ℚ
  price : ℚ
  amount : ℚ
  exit_at : ℚ
  closed : ℕ
  pnl : Option ℚ
  pnl_percent : Option ℚ
  stoploss_price : Option ℚ
  take_profit_price : Option ℚ
  close_reason : Option String
  created : ℚ
  updated : ℚ
deriving Repr, DecidableEq

/-- `db.mark_closed(tr, pnl=None, close_reason="time_expiry")` (db.py lines
172-191) as a pure state update on the trade row; `datetime.utcnow()` is the
explicit parameter `now`.  The Python truthiness guard
`tr.price and float(tr.price) > 0` is `0 < tr.price` on the rational model.
Note the function performs no check of `tr.closed`, and when `pnl` is given
it reconstructs the close-time price as `pnl / qty + price` (in Python a zero
`qty` would raise; the claims using this model assume `qty > 0`). -/
def mark_closed (tr : Trade) (now : ℚ) (pnl : Option ℚ := none)
    (close_reason : String := "time_expiry") : Trade :=
  let tr1 := { tr with closed := 1, close_reason := some close_reason }
  match pnl with
  | none => { tr1 with updated := now }
  | some p =>
    let tr2 := { tr1 with pnl := some p }
    let tr3 :=
      if (0 : ℚ) < tr2.price then
        let current_price := p / tr2.qty + tr2.price
        { tr2 with pnl_percent := some ((current_price / tr2.price - 1) * 100) }
      else
        tr2
    { tr3 with updated := now }

/-- `db.due_trades(now)` (db.py lines 161-170): the rows with
`exit_at <= now` and `closed == 0`, modelled as a filter over the table
contents. -/
def due_trades (now : ℚ) (table : List Trade) : List Trade :=
  table.filter (fun tr => decide (tr.exit_at ≤ now ∧ tr.closed = 0))

/-- `db.get_open_trades()` (db.py lines 203-212): the rows with
`closed == 0`. -/
def get_open_trades (table : List Trade) : List Trade :=
  table.filter (fun tr => decide (tr.closed = 0))

end DB

end MexcAlphaBot

namespace MexcAlphaBot

namespace DB

/-- A trade row that is already CLOSED, with stored P&L 5 and reason
stoploss, used to exercise `mark_closed` a second time. -/
def sampleClosedTrade : Trade :=
  { symbol := "AAAUSDT", side := "BUY", qty := 1, price := 100, amount := 100,
    exit_at := 200, closed := 1, pnl := some 5, pnl_percent := some 5,
    stoploss_price := some 95, take_profit_price := none,
    close_reason := some "stoploss", created := 0, updated := 50 }

/-- An OPEN trade row due at time 200. -/
def sampleOpenTrade : Trade :=
  { symbol := "BBBUSDT", side := "BUY", qty := 2, price := 50, amount := 100,
    exit_at := 200, closed := 0, pnl := some 0, pnl_percent := none,
    stoploss_price := some 47, take_profit_price := none,
    close_reason := none, created := 0, updated := 0 }

end DB

/-- Counterexample to claim C5: `db.mark_closed` performs no check of the
CLOSED state, so invoking the close operation on an already-closed position
(stored P&L 5, reason stoploss) with a different P&L overwrites the stored
P&L (5 becomes 7) and the close reason (stoploss becomes the default
time_expiry); the second invocation is neither rejected nor a no-op. -/
theorem C5_mark_closed_counterexample :
    DB.sampleClosedTrade.closed = 1 ∧
    DB.sampleClosedTrade.pnl = some 5 ∧
    DB.sampleClosedTrade.close_reason = some "stoploss" ∧
    (DB.mark_closed DB.sampleClosedTrade 60 (some 7)).pnl = some 7 ∧
    (DB.mark_closed DB.sampleClosedTrade 60 (some 7)).pnl ≠ DB.sampleClosedTrade.pnl ∧
    (DB.mark_closed DB.sampleClosedTrade 60 (some 7)).close_reason = some "time_expiry" := by
  refine ⟨rfl, rfl, rfl, ?_, ?_, ?_⟩ <;>
    norm_num [DB.mark_closed, DB.sampleClosedTrade]

/-- Claim C5 (amended): `mark_closed` itself performs no already-closed
guard — re-invocation with different arguments overwrites the stored P&L and
close reason (see the counterexample) — but every invocation leaves the
position CLOSED with the non-none reason it was given, never touches
qty/entry price/amount, stores the P&L by overwrite (never accumulating it,
so P&L is never applied twice), and repeating the same invocation is a
no-op; within the bot's flows a closed position is never re-closed because
the monitor only obtains candidates from `due_trades`/`get_open_trades`,
which return only rows with `closed = 0`. -/
theorem C5_close_once_amended :
    (∀ (tr : DB.Trade) (now : ℚ) (pnl : Option ℚ) (r : String),
      (DB.mark_closed tr now pnl r).closed = 1 ∧
      (DB.mark_closed tr now pnl r).close_reason = some r ∧
      (DB.mark_closed tr now pnl r).qty = tr.qty ∧
      (DB.mark_closed tr now pnl r).price = tr.price ∧
      (DB.mark_closed tr now pnl r).amount = tr.amount ∧
      (∀ p, pnl = some p → (DB.mark_closed tr now pnl r).pnl = some p) ∧
      DB.mark_closed (DB.mark_closed tr now pnl r) now pnl r
        = DB.mark_closed tr now pnl r) ∧
    (∀ (now : ℚ) (table : List DB.Trade) (tr : DB.Trade),
      tr ∈ DB.due_trades now table → tr.closed = 0) ∧
    (∀ (table : List DB.Trade) (tr : DB.Trade),
      tr ∈ DB.get_open_trades table → tr.closed = 0) := by
  refine ⟨?_, ?_, ?_⟩
  · intro tr now pnl r
    cases pnl with
    | none => exact ⟨rfl, rfl, rfl, rfl, rfl, (fun p hp => nomatch hp), rfl⟩
    | some p =>
      by_cases hp : (0 : ℚ) < tr.price <;>
        simp [DB.mark_closed, hp]
  · intro now table tr h
    exact (of_decide_eq_true (List.mem_filter.mp h).2).2
  · intro table tr h
    exact of_decide_eq_true (List.mem_filter.mp h).2

/-- Witness for C5 (amended): a concrete open trade in a one-row table is
returned by both queries with `closed = 0`, and closing it records exit
data as stated. -/
theorem C5_close_once_amended_witness :
    (DB.mark_closed DB.sampleOpenTrade 300 (some 10) "stoploss").closed = 1 ∧
    (DB.mark_closed DB.sampleOpenTrade 300 (some 10) "stoploss").close_reason
      = some "stoploss" ∧
    (DB.mark_closed DB.sampleOpenTrade 300 (some 10) "stoploss").pnl = some 10 ∧
    DB.sampleOpenTrade.closed = 0 := by
  have h := C5_close_once_amended
  have hmem : DB.sampleOpenTrade ∈ DB.due_trades 300 [DB.sampleOpenTrade] := by
    norm_num [DB.due_trades, DB.sampleOpenTrade]
  exact ⟨(h.1 DB.sampleOpenTrade 300 (some 10) "stoploss").1,
    (h.1 DB.sampleOpenTrade 300 (some 10) "stoploss").2.1,
    (h.1 DB.sampleOpenTrade 300 (some 10) "stoploss").2.2.2.2.2.1 10 rfl,
    h.2.1 300 [DB.sampleOpenTrade] DB.sampleOpenTrade hmem⟩

end MexcAlphaBot

namespace MexcAlphaBot

namespace Bot

/-- Python truthiness of a nullable numeric column
(`tr.stoploss_price`, `tr.take_profit_price`): `None` and `0` are falsy. -/
def truthyOpt : Option ℚ → Bool
  | none => false
  | some x => decide (x ≠ 0)

/-- Per-position trigger evaluation inside
`bot.check_stoploss_and_take_profit` (bot.py lines 528-552).  The
environment flags `STOP_LOSS_ENABLED` / `TAKE_PROFIT_ENABLED` and the
configured threshold are parameters; `hours_held` is
`(now - tr.created).total_seconds() / 3600`.  Exactly as in the source, the
stop-loss check assigns `trigger_reason` first and the take-profit check is
a second independent `if` that can overwrite it. -/
def check_trigger (stop_loss_enabled take_profit_enabled : Bool)
    (stoploss_threshold : ℚ) (tr : DB.Trade) (current_price now : ℚ) :
    Option String :=
  let hours_held := (now - tr.created) / 3600
  let trigger1 : Option String :=
    if stop_loss_enabled = true ∧ truthyOpt tr.stoploss_price = true ∧
        current_price ≤
          calculate_dynamic_stoploss stoploss_threshold tr.price current_price hours_held
    then some "stoploss" else none
  if take_profit_enabled = true ∧ truthyOpt tr.take_profit_price = true ∧
      tr.take_profit_price.getD 0 ≤ current_price
  then some "take_profit" else trigger1

/-- The close step for a position examined by
`bot.check_stoploss_and_take_profit` (bot.py lines 554-589): when a trigger
fired, the P&L is computed (when the entry price is truthy) and the trade is
passed to `db.mark_closed(tr, pnl)` WITHOUT a `close_reason` argument, so
the database default `"time_expiry"` is recorded whatever the trigger
was. -/
def check_and_close (stop_loss_enabled take_profit_enabled : Bool)
    (stoploss_threshold : ℚ) (tr : DB.Trade) (current_price now : ℚ) :
    DB.Trade :=
  match check_trigger stop_loss_enabled take_profit_enabled stoploss_threshold
      tr current_price now with
  | some _ =>
    let pnl := if tr.price ≠ 0
      then some ((current_price - tr.price) * tr.qty) else none
    DB.mark_closed tr now pnl
  | none => tr

/-- An OPEN position bought at 100 with stored stop-loss 95 and no
take-profit, created at time 0. -/
def triggerTrade : DB.Trade :=
  { symbol := "CCCUSDT", side := "BUY", qty := 1, price := 100, amount := 100,
    exit_at := 43200, closed := 0, pnl := some 0, pnl_percent := none,
    stoploss_price := some 95, take_profit_price := none,
    close_reason := none, created := 0, updated := 0 }

end Bot

/-- Claim C1 fails on the code (code bug): for a position bought at 100 with
stop-loss enabled, price 90 one hour after entry, the stop-loss trigger
fires (`trigger_reason = "stoploss"`), but the close is recorded with reason
"time_expiry", because `bot.py` calls `mark_closed(tr, pnl)` without passing
the trigger reason and `db.mark_closed` defaults `close_reason` to
"time_expiry".  Moreover when both the stop-loss and take-profit conditions
hold (stored take-profit 80, price 90), the later take-profit `if`
overwrites the stop-loss trigger, so the first matching trigger does NOT
win. -/
theorem C1_close_reason_code_bug :
    Bot.check_trigger true false (1 / 20) Bot.triggerTrade 90 3600
      = some "stoploss" ∧
    (Bot.check_and_close true false (1 / 20) Bot.triggerTrade 90 3600).closed = 1 ∧
    (Bot.check_and_close true false (1 / 20) Bot.triggerTrade 90 3600).close_reason
      = some "time_expiry" ∧
    (Bot.check_and_close true false (1 / 20) Bot.triggerTrade 90 3600).close_reason
      ≠ some "stoploss" ∧
    Bot.check_trigger true true (1 / 20)
        { Bot.triggerTrade with take_profit_price := some 80 } 90 3600
      = some "take_profit" := by
  refine ⟨?_, ?_, ?_, ?_, ?_⟩ <;>
    norm_num [Bot.check_trigger, Bot.check_and_close, Bot.calculate_dynamic_stoploss,
      Bot.truthyOpt, Bot.triggerTrade, DB.mark_closed, pyMax, pyMin] <;>
    decide

end MexcAlphaBot

namespace MexcAlphaBot

namespace Bot

/-- Observable outcome of one run of `bot.retry_async` (bot.py lines
120-141): the final result (`Except.error` models the re-raised last
exception, `none` only in the degenerate `retries = 0` case where Python
would raise `None`), the number of per-failure warning log lines, and the
sequence of back-off waits actually slept, in order. -/
structure RetryTrace (ε α : Type) where
  result : Except (Option ε) α
  failures : ℕ
  waits : List ℚ
deriving Repr

/-- The loop of `bot.retry_async`: `remaining` iterations left, `attempt` is
the 0-indexed attempt counter, `last_error` the accumulator.  Attempt
outcomes are the oracle `op`; the sampled `random.uniform(0, 0.5)` values
are the oracle `jitter`.  As in the source, a wait of
`2 ^ attempt + jitter attempt` is slept after EVERY failure, including the
final one before re-raising. -/
def retry_go {ε α : Type} (op : ℕ → Except ε α) (jitter : ℕ → ℚ) :
    ℕ → ℕ → Option ε → RetryTrace ε α
  | 0, _, last_error => ⟨Except.error last_error, 0, []⟩
  | remaining + 1, attempt, _ =>
    match op attempt with
    | Except.ok v => ⟨Except.ok v, 0, []⟩
    | Except.error e =>
      let wait_time : ℚ := 2 ^ attempt + jitter attempt
      let rest := retry_go op jitter remaining (attempt + 1) (some e)
      ⟨rest.result, rest.failures + 1, wait_time :: rest.waits⟩

/-- `bot.retry_async(func, retries=MAX_RETRY)`. -/
def retry_async {ε α : Type} (op : ℕ → Except ε α) (jitter : ℕ → ℚ)
    (retries : ℕ) : RetryTrace ε α :=
  retry_go op jitter retries 0 none

theorem retry_go_ok {ε α : Type} (op : ℕ → Except ε α) (jitter : ℕ → ℚ) (v : α) :
    ∀ (k remaining s : ℕ) (le : Option ε),
      k < remaining →
      (∀ i, i < k → ∃ e, op (s + i) = Except.error e) →
      op (s + k) = Except.ok v →
      retry_go op jitter remaining s le
        = ⟨Except.ok v, k, (List.range k).map (fun i => 2 ^ (s + i) + jitter (s + i))⟩ := by
  intro k
  induction k with
  | zero =>
    intro remaining s le hk hfail hok
    cases remaining with
    | zero => exact absurd hk (by omega)
    | succ r =>
      have hok0 : op s = Except.ok v := by simpa using hok
      simp [retry_go, hok0]
  | succ k ih =>
    intro remaining s le hk hfail hok
    cases remaining with
    | zero => exact absurd hk (by omega)
    | succ r =>
      obtain ⟨e, he⟩ := hfail 0 (Nat.succ_pos k)
      have he0 : op s = Except.error e := by simpa using he
      have hrec := ih r (s + 1) (some e) (by omega)
        (fun i hi => by
          have hadd : s + 1 + i = s + (i + 1) := by omega
          rw [hadd]
          exact hfail (i + 1) (by omega))
        (by
          have hadd : s + 1 + k = s + (k + 1) := by omega
          rw [hadd]
          exact hok)
      simp only [retry_go, he0, hrec]
      refine congrArg (RetryTrace.mk (Except.ok v) (k + 1)) ?_
      rw [List.range_succ_eq_map, List.map_cons, List.map_map]
      refine congrArg₂ List.cons (by simp) ?_
      refine List.map_congr_left ?_
      intro i _
      have hadd : s + 1 + i = s + (i + 1) := by omega
      simp [Function.comp, hadd]

theorem retry_go_all_fail {ε α : Type} (op : ℕ → Except ε α) (jitter : ℕ → ℚ)
    (errs : ℕ → ε) :
    ∀ (remaining s : ℕ) (le : Option ε),
      (∀ i, i < remaining → op (s + i) = Except.error (errs (s + i))) →
      0 < remaining →
      retry_go op jitter remaining s le
        = (⟨Except.error (some (errs (s + remaining - 1))), remaining,
            (List.range remaining).map (fun i => 2 ^ (s + i) + jitter (s + i))⟩ :
            RetryTrace ε α) := by
  intro remaining
  induction remaining with
  | zero => intro s le _ hpos; exact absurd hpos (by omega)
  | succ r ih =>
    intro s le hfail _
    have he0 : op s = Except.error (errs s) := by simpa using hfail 0 (Nat.succ_pos r)
    rcases Nat.eq_zero_or_pos r with h0 | hr
    · subst h0
      simp [retry_go, he0]
      rw [List.range_succ]
      simp
    · have hrec := ih (s + 1) (some (errs s))
        (fun i hi => by
          have hadd : s + 1 + i = s + (i + 1) := by omega
          rw [hadd]
          exact hfail (i + 1) (by omega)) hr
      simp only [retry_go, he0, hrec]
      have hidx : s + 1 + r - 1 = s + (r + 1) - 1 := by omega
      refine congrArg₂ (fun x y => RetryTrace.mk x (r + 1) y) (by rw [hidx]) ?_
      rw [List.range_succ_eq_map, List.map_cons, List.map_map]
      refine congrArg₂ List.cons (by simp) ?_
      refine List.map_congr_left ?_
      intro i _
      have hadd : s + 1 + i = s + (i + 1) := by omega
      simp [Function.comp, hadd]

theorem retry_go_waits {ε α : Type} (op : ℕ → Except ε α) (jitter : ℕ → ℚ) :
    ∀ (remaining s : ℕ) (le : Option ε) (i : ℕ) (w : ℚ),
      (retry_go op jitter remaining s le).waits.get? i = some w →
      w = 2 ^ (s + i) + jitter (s + i) := by
  intro remaining
  induction remaining with
  | zero => intro s le i w h; simp [retry_go] at h
  | succ r ih =>
    intro s le i w h
    rcases hop : op s with e | v
    · rw [retry_go, hop] at h
      cases i with
      | zero =>
        simp at h
        simp [← h]
      | succ j =>
        have hj := ih (s + 1) (some e) j w (by simpa using h)
        have hadd : s + 1 + j = s + (j + 1) := by omega
        rw [← hadd]
        exact hj
    · rw [retry_go, hop] at h
      simp at h

end Bot

end MexcAlphaBot

namespace MexcAlphaBot

/-- Claim C4: for any operation oracle and maxAttempts >= 1, if the
operation fails k < maxAttempts times and then succeeds, the resilient call
wrapper returns the success value having logged exactly k failures; if it
fails maxAttempts consecutive times, it raises carrying the last error
(after maxAttempts failure logs); and the k-th wait (0-indexed, slept after
the k-th failed attempt) is 2^k base units plus the sampled jitter, which by
the jitter hypothesis lies in [2^k, 2^k + 1/2). -/
theorem C4_retry_async_spec {ε α : Type} (op : ℕ → Except ε α)
    (jitter : ℕ → ℚ) (errs : ℕ → ε) (retries k : ℕ) (v : α)
    (hretries : 1 ≤ retries)
    (hfail : ∀ i, i < k → op i = Except.error (errs i))
    (hjit : ∀ i, 0 ≤ jitter i ∧ jitter i < 1 / 2) :
    (k < retries → op k = Except.ok v →
      Bot.retry_async op jitter retries
        = ⟨Except.ok v, k, (List.range k).map (fun i => 2 ^ i + jitter i)⟩) ∧
    (k = retries →
      Bot.retry_async op jitter retries
        = ⟨Except.error (some (errs (retries - 1))), retries,
           (List.range retries).map (fun i => 2 ^ i + jitter i)⟩) ∧
    (∀ i w, (Bot.retry_async op jitter retries).waits.get? i = some w →
      (2 : ℚ) ^ i ≤ w ∧ w < 2 ^ i + 1 / 2) := by
  refine ⟨?_, ?_, ?_⟩
  · intro hk hok
    have h := Bot.retry_go_ok op jitter v k retries 0 none hk
      (fun i hi => ⟨errs i, by simpa using hfail i hi⟩) (by simpa using hok)
    simpa [Bot.retry_async] using h
  · intro hke
    subst hke
    have h := Bot.retry_go_all_fail op jitter errs k 0 none
      (fun i hi => by simpa using hfail i hi) (by omega)
    simpa [Bot.retry_async] using h
  · intro i w hw
    have h := Bot.retry_go_waits op jitter retries 0 none i w (by simpa [Bot.retry_async] using hw)
    have hj := hjit i
    constructor
    · simp only [Nat.zero_add] at h
      rw [h]
      linarith [hj.1]
    · simp only [Nat.zero_add] at h
      rw [h]
      linarith [hj.2]

/-- Attempt oracle for the C4 witness: one failure, then success with 7. -/
def witnessOp : ℕ → Except Unit ℕ :=
  fun i => if i = 0 then Except.error () else Except.ok 7

/-- Witness for C4: with maxAttempts = 3 and zero jitter, one failure then
success yields the value 7, one failure log and the single wait 2^0 = 1. -/
theorem C4_retry_async_spec_witness :
    Bot.retry_async witnessOp (fun _ => 0) 3
      = ⟨Except.ok 7, 1, [1]⟩ := by
  have h := (C4_retry_async_spec witnessOp (fun _ => 0) (fun _ => ()) 3 1 7
    (by omega)
    (fun i hi => by rw [Nat.lt_one_iff.mp hi]; rfl)
    (fun i => ⟨le_refl 0, one_half_pos⟩)).1 (by omega) rfl
  rw [h]
  rw [List.range_succ]
  norm_num

end MexcAlphaBot

namespace MexcAlphaBot

namespace Bot

/-- One slot of the module-level `cache` dict in bot.py (lines 79-86):
payload plus last-refresh timestamp (`{"data": None, "timestamp": 0}`
initially, hence the `Option`). -/
structure CacheEntry (α : Type) where
  data : Option α
  timestamp : ℚ
deriving Repr, DecidableEq

/-- One call of `bot.get_cached_tickers()` (bot.py lines 143-150), with
`time.time()` as the parameter `now`, the `CACHE_TIMEOUT` environment value
as `cache_timeout`, and the remote `fetch_tickers` result as `loader`
(`get_cached_balance`, lines 152-159, is the same code on another slot).
Returns the value handed to the caller, the updated cache slot, and whether
the loader was invoked.  The refresh condition of the source is
`data is None or (now - timestamp) > CACHE_TIMEOUT` — strictly greater. -/
def get_cached_tickers {α : Type} (c : CacheEntry α) (now cache_timeout : ℚ)
    (loader : α) : α × CacheEntry α × Bool :=
  match c.data with
  | none => (loader, ⟨some loader, now⟩, true)
  | some d =>
    if cache_timeout < now - c.timestamp then (loader, ⟨some loader, now⟩, true)
    else (d, c, false)

end Bot

/-- Counterexample to claim C6: a cache entry whose age has exactly reached
ttl (entry stored at 0, read at ttl = 300) does NOT invoke the loader — the
source refreshes only when age strictly exceeds ttl — the stale stored
value 42 is returned instead of the fresh 99. -/
theorem C6_cache_ttl_counterexample :
    Bot.get_cached_tickers (⟨some 42, 0⟩ : Bot.CacheEntry ℚ) 300 300 99
      = (42, ⟨some 42, 0⟩, false) := by
  norm_num [Bot.get_cached_tickers]

/-- Claim C6 (amended): two sequential cache reads within ttl of each other
(age at most ttl) invoke the loader exactly once — after a refreshing call
at time t0, a second call at any t1 with t1 - t0 <= ttl returns the value
stored by the first call without invoking the loader and leaves the state
unchanged; a call finding no entry, or an entry whose age STRICTLY exceeds
ttl (not merely reaches it), invokes the loader and stores the fresh result
with the current timestamp. -/
theorem C6_cache_amended {α : Type} (c : Bot.CacheEntry α)
    (ttl t0 t1 : ℚ) (v1 v2 : α) :
    ((Bot.get_cached_tickers c t0 ttl v1).2.2 = true →
      t1 - t0 ≤ ttl →
      Bot.get_cached_tickers (Bot.get_cached_tickers c t0 ttl v1).2.1 t1 ttl v2
        = (v1, (Bot.get_cached_tickers c t0 ttl v1).2.1, false)) ∧
    (c.data = none →
      Bot.get_cached_tickers c t0 ttl v1 = (v1, ⟨some v1, t0⟩, true)) ∧
    (∀ d, c.data = some d → ttl < t0 - c.timestamp →
      Bot.get_cached_tickers c t0 ttl v1 = (v1, ⟨some v1, t0⟩, true)) ∧
    (∀ d, c.data = some d → t0 - c.timestamp ≤ ttl →
      Bot.get_cached_tickers c t0 ttl v1 = (d, c, false)) := by
  have hfresh : ∀ d : α, Bot.get_cached_tickers (⟨some d, t0⟩ : Bot.CacheEntry α) t1 ttl v2
      = if ttl < t1 - t0 then (v2, ⟨some v2, t1⟩, true) else (d, ⟨some d, t0⟩, false) := by
    intro d
    simp [Bot.get_cached_tickers]
  refine ⟨?_, ?_, ?_, ?_⟩
  · intro hinv hage
    rcases hc : c.data with _ | d
    · have h1 : Bot.get_cached_tickers c t0 ttl v1 = (v1, ⟨some v1, t0⟩, true) := by
        simp [Bot.get_cached_tickers, hc]
      rw [h1]
      simp only
      rw [hfresh v1, if_neg (not_lt.mpr hage)]
    · by_cases hstale : ttl < t0 - c.timestamp
      · have h1 : Bot.get_cached_tickers c t0 ttl v1 = (v1, ⟨some v1, t0⟩, true) := by
          simp [Bot.get_cached_tickers, hc, hstale]
        rw [h1]
        simp only
        rw [hfresh v1, if_neg (not_lt.mpr hage)]
      · have h1 : Bot.get_cached_tickers c t0 ttl v1 = (d, c, false) := by
          simp [Bot.get_cached_tickers, hc, hstale]
        rw [h1] at hinv
        simp at hinv
  · intro hc
    simp [Bot.get_cached_tickers, hc]
  · intro d hc hstale
    simp [Bot.get_cached_tickers, hc, hstale]
  · intro d hc hage
    simp [Bot.get_cached_tickers, hc, not_lt.mpr hage]

/-- Witness for C6 (amended): a refreshing first read at time 0 of an empty
cache, then a second read at time 200 with ttl 300, returns the first
loader value 42 without invoking the loader again. -/
theorem C6_cache_amended_witness :
    Bot.get_cached_tickers
        (Bot.get_cached_tickers (⟨none, 0⟩ : Bot.CacheEntry ℚ) 0 300 42).2.1
        200 300 99
      = (42, (Bot.get_cached_tickers (⟨none, 0⟩ : Bot.CacheEntry ℚ) 0 300 42).2.1,
         false) ∧
    Bot.get_cached_tickers (⟨none, 0⟩ : Bot.CacheEntry ℚ) 0 300 42
      = (42, ⟨some 42, 0⟩, true) := by
  have h := C6_cache_amended (⟨none, 0⟩ : Bot.CacheEntry ℚ) 300 0 200 42 99
  refine ⟨h.1 ?_ (by norm_num), h.2.1 rfl⟩
  rw [h.2.1 rfl]

end MexcAlphaBot

namespace MexcAlphaBot

namespace Bot

/-- Python `s.endswith(suffix)`. -/
def pyEndsWith (s suffix : String) : Bool :=
  decide (suffix.data <:+ s.data)

/-- Python `sym.replace('/', '')`: with a one-character pattern and an empty
replacement this removes every slash. -/
def stripSlashes (s : String) : String :=
  ⟨s.data.filter (fun c => c ≠ '/')⟩

/-- Insertion step of the stable descending sort performed by Python
`sorted(..., key=lambda kv: kv[1], reverse=True)` in `bot.top10_symbols`:
an element coming earlier in the original sequence stays before every later
element whose key is not larger. -/
def insort (x : String × ℚ) : List (String × ℚ) → List (String × ℚ)
  | [] => [x]
  | y :: ys => if y.2 ≤ x.2 then x :: y :: ys else y :: insort x ys

/-- Stable sort by descending 24h quote volume, as Python
`sorted(usdt.items(), key=lambda kv: kv[1]['quoteVolume'], reverse=True)`
(each pair is already abstracted to (symbol, quoteVolume)). -/
def sort_by_quote_volume_desc : List (String × ℚ) → List (String × ℚ)
  | [] => []
  | x :: xs => insort x (sort_by_quote_volume_desc xs)

/-- `bot.top10_symbols()` (bot.py lines 300-321).  The awaited
`get_cached_tickers()` result is the parameter `fetch_tickers`: `none`
models the data-source error swallowed by the `except` branch (which
returns `[]`), `some raw` the ticker map in its Python dict iteration
order, abstracted to (symbol, quoteVolume) pairs.  `MAX_CONCURRENT_SYMBOLS`
is the parameter `max_concurrent_symbols`. -/
def top10_symbols (fetch_tickers : Option (List (String × ℚ)))
    (max_concurrent_symbols : ℕ) : List String :=
  match fetch_tickers with
  | none => []
  | some raw =>
    let usdt := raw.filter (fun kv => pyEndsWith kv.1 "/USDT")
    let ranked := sort_by_quote_volume_desc usdt
    let top_n := min max_concurrent_symbols 10
    (ranked.take top_n).map (fun kv => stripSlashes kv.1)

theorem insort_perm (x : String × ℚ) (l : List (String × ℚ)) :
    (insort x l).Perm (x :: l) := by
  induction l with
  | nil => exact List.Perm.refl _
  | cons y ys ih =>
    by_cases hc : y.2 ≤ x.2
    · rw [insort, if_pos hc]
    · rw [insort, if_neg hc]
      exact (ih.cons y).trans (List.Perm.swap x y ys)

theorem sort_by_quote_volume_desc_perm (l : List (String × ℚ)) :
    (sort_by_quote_volume_desc l).Perm l := by
  induction l with
  | nil => exact List.Perm.refl _
  | cons x xs ih =>
    exact (insort_perm x (sort_by_quote_volume_desc xs)).trans (ih.cons x)

theorem insort_pairwise (x : String × ℚ) (l : List (String × ℚ))
    (h : List.Pairwise (fun a b : String × ℚ => b.2 ≤ a.2) l) :
    List.Pairwise (fun a b : String × ℚ => b.2 ≤ a.2) (insort x l) := by
  induction l with
  | nil => simp [insort]
  | cons y ys ih =>
    rcases List.pairwise_cons.mp h with ⟨hy, hys⟩
    by_cases hc : y.2 ≤ x.2
    · rw [insort, if_pos hc]
      refine List.pairwise_cons.mpr ⟨?_, h⟩
      intro b hb
      rcases List.mem_cons.mp hb with rfl | hb2
      · exact hc
      · exact le_trans (hy b hb2) hc
    · rw [insort, if_neg hc]
      refine List.pairwise_cons.mpr ⟨?_, ih hys⟩
      intro b hb
      have hb2 : b ∈ x :: ys := (insort_perm x ys).mem_iff.mp hb
      rcases List.mem_cons.mp hb2 with rfl | hb3
      · exact le_of_lt (not_le.mp hc)
      · exact hy b hb3

theorem sort_by_quote_volume_desc_pairwise (l : List (String × ℚ)) :
    List.Pairwise (fun a b : String × ℚ => b.2 ≤ a.2)
      (sort_by_quote_volume_desc l) := by
  induction l with
  | nil => simp [sort_by_quote_volume_desc]
  | cons x xs ih => exact insort_pairwise x _ ih

theorem filter_insort (v : ℚ) (x : String × ℚ) (l : List (String × ℚ)) :
    (insort x l).filter (fun kv => decide (kv.2 = v))
      = (x :: l).filter (fun kv => decide (kv.2 = v)) := by
  induction l with
  | nil => rfl
  | cons y ys ih =>
    by_cases hc : y.2 ≤ x.2
    · rw [insort, if_pos hc]
    · rw [insort, if_neg hc]
      by_cases hx : x.2 = v
      · have hy : ¬ y.2 = v := by
          rw [← hx]
          exact ne_of_gt (not_le.mp hc)
        simp only [List.filter_cons, ih]
        simp [hy, hx]
      · simp only [List.filter_cons, ih]
        simp [hx]

theorem filter_sort_by_quote_volume_desc (v : ℚ) (l : List (String × ℚ)) :
    (sort_by_quote_volume_desc l).filter (fun kv => decide (kv.2 = v))
      = l.filter (fun kv => decide (kv.2 = v)) := by
  induction l with
  | nil => rfl
  | cons x xs ih =>
    rw [sort_by_quote_volume_desc, filter_insort, List.filter_cons,
      List.filter_cons, ih]

end Bot

end MexcAlphaBot

namespace MexcAlphaBot

/-- Counterexample to claim C7: on a ticker map holding B/USDT before A/USDT
with equal 24h quote volume 5, the selector returns ["BUSDT", "AUSDT"] —
Python's stable `sorted(..., reverse=True)` keeps the map's iteration order
on ties — not the id-ascending ["AUSDT", "BUSDT"] the claim requires. -/
theorem C7_tiebreak_counterexample :
    Bot.top10_symbols (some [("B/USDT", 5), ("A/USDT", 5)]) 10
      = ["BUSDT", "AUSDT"] ∧
    Bot.top10_symbols (some [("B/USDT", 5), ("A/USDT", 5)]) 10
      ≠ ["AUSDT", "BUSDT"] := by
  constructor <;> decide

/-- Claim C7 (amended): for every ticker map, the selector returns the
USDT-quoted ids ordered by non-increasing 24h quote volume with ties kept
in the map's own iteration order (the sort is stable: for each volume v the
subsequence of volume-v pairs is exactly the original one), truncated to
the first min(maxConcurrentSymbols, 10) and with the slash removed; on a
data-source error it returns the empty list instead of propagating the
failure. -/
theorem C7_selector_amended (raw usdt : List (String × ℚ)) (m : ℕ) :
    Bot.top10_symbols none m = [] ∧
    Bot.top10_symbols (some raw) m
      = ((Bot.sort_by_quote_volume_desc
            (raw.filter (fun kv => Bot.pyEndsWith kv.1 "/USDT"))).take
          (min m 10)).map (fun kv => Bot.stripSlashes kv.1) ∧
    (Bot.sort_by_quote_volume_desc usdt).Perm usdt ∧
    List.Pairwise (fun a b : String × ℚ => b.2 ≤ a.2)
      (Bot.sort_by_quote_volume_desc usdt) ∧
    (∀ v : ℚ, (Bot.sort_by_quote_volume_desc usdt).filter
          (fun kv => decide (kv.2 = v))
        = usdt.filter (fun kv => decide (kv.2 = v))) := by
  exact ⟨rfl, rfl, Bot.sort_by_quote_volume_desc_perm usdt,
    Bot.sort_by_quote_volume_desc_pairwise usdt,
    fun v => Bot.filter_sort_by_quote_volume_desc v usdt⟩

/-- Claim C10: whatever the configured max-concurrent-instruments value, the
selector returns at most min(maxConcurrentSymbols, 10) ids — never more
than 10 — and every returned id comes from a ticker-map pair whose symbol
ends in "/USDT" (quote currency USDT), with the slash stripped. -/
theorem C10_selector_invariants (raw : List (String × ℚ)) (m : ℕ) :
    (Bot.top10_symbols (some raw) m).length ≤ min m 10 ∧
    (Bot.top10_symbols none m).length ≤ min m 10 ∧
    (∀ s, s ∈ Bot.top10_symbols (some raw) m →
      ∃ kv, kv ∈ raw ∧ Bot.pyEndsWith kv.1 "/USDT" = true ∧
        s = Bot.stripSlashes kv.1) := by
  refine ⟨?_, by simp [Bot.top10_symbols], ?_⟩
  · simp only [Bot.top10_symbols, List.length_map, List.length_take]
    exact min_le_left _ _
  · intro s hs
    simp only [Bot.top10_symbols, List.mem_map] at hs
    obtain ⟨kv, hkv, hmap⟩ := hs
    have hranked : kv ∈ Bot.sort_by_quote_volume_desc
        (raw.filter (fun kv => Bot.pyEndsWith kv.1 "/USDT")) :=
      List.mem_of_mem_take hkv
    have hfiltered : kv ∈ raw.filter (fun kv => Bot.pyEndsWith kv.1 "/USDT") :=
      (Bot.sort_by_quote_volume_desc_perm _).mem_iff.mp hranked
    rcases List.mem_filter.mp hfiltered with ⟨hraw, hsuffix⟩
    exact ⟨kv, hraw, hsuffix, hmap.symm⟩

/-- Witness for C10 on the one-pair map [("A/USDT", 3)] with the configured
maximum 25: one id is returned, it is "AUSDT", and it originates from the
USDT pair. -/
theorem C10_selector_invariants_witness :
    (Bot.top10_symbols (some [("A/USDT", 3)]) 25).length ≤ min 25 10 ∧
    (∃ kv, kv ∈ [(("A/USDT" : String), (3 : ℚ))] ∧
      Bot.pyEndsWith kv.1 "/USDT" = true ∧
      "AUSDT" = Bot.stripSlashes kv.1) := by
  have h := C10_selector_invariants [("A/USDT", 3)] 25
  exact ⟨h.1, h.2.2 "AUSDT" (by decide)⟩

end MexcAlphaBot

namespace MexcAlphaBot

namespace Bot

/-- The close step of `bot.exit_due` for one due trade (bot.py lines
464-501): with the observed `current_price` and a truthy entry price the
realized P&L `(current_price - tr.price) * tr.qty` is computed and the
trade is passed to `db.mark_closed(tr, pnl)` (default close reason
time_expiry). -/
def exit_close (tr : DB.Trade) (current_price now : ℚ) : DB.Trade :=
  let pnl := if tr.price ≠ 0
    then some ((current_price - tr.price) * tr.qty) else none
  DB.mark_closed tr now pnl

/-- A due OPEN trade bought at 100 with quantity 2. -/
def exitTrade : DB.Trade :=
  { symbol := "DDDUSDT", side := "BUY", qty := 2, price := 100, amount := 200,
    exit_at := 3600, closed := 0, pnl := some 0, pnl_percent := none,
    stoploss_price := some 95, take_profit_price := none,
    close_reason := none, created := 0, updated := 0 }

end Bot

/-- Claim C8: for every position closed at an observed exit price p with
entry price e > 0 and quantity q > 0, the persisted realized P&L is
(p - e) * q, the persisted P&L percentage is (p / e - 1) * 100, and the
close-time reconstruction pnl / qty + price performed by `mark_closed`
recovers exactly the observed exit price p (so the observed price is
authoritative; the reconstruction is exact in exact arithmetic). -/
theorem C8_pnl_spec (tr : DB.Trade) (p now : ℚ)
    (he : 0 < tr.price) (hq : 0 < tr.qty) :
    (Bot.exit_close tr p now).pnl = some ((p - tr.price) * tr.qty) ∧
    (Bot.exit_close tr p now).pnl_percent = some ((p / tr.price - 1) * 100) ∧
    ((p - tr.price) * tr.qty) / tr.qty + tr.price = p := by
  have hne : tr.price ≠ 0 := ne_of_gt he
  have hqne : tr.qty ≠ 0 := ne_of_gt hq
  have hrec : ((p - tr.price) * tr.qty) / tr.qty + tr.price = p := by
    rw [mul_div_assoc, div_self hqne, mul_one]
    ring
  refine ⟨?_, ?_, hrec⟩
  · simp [Bot.exit_close, DB.mark_closed, hne, he]
  · have hval : (Bot.exit_close tr p now).pnl_percent
        = some ((((p - tr.price) * tr.qty / tr.qty + tr.price) / tr.price - 1) * 100) := by
      simp [Bot.exit_close, DB.mark_closed, hne, he]
    rw [hval, hrec]

/-- Witness for C8: a trade bought at 100 with quantity 2 closed at the
observed price 110 persists P&L 20 and P&L% 10, and the reconstruction
recovers 110. -/
theorem C8_pnl_spec_witness :
    (Bot.exit_close Bot.exitTrade 110 7200).pnl = some 20 ∧
    (Bot.exit_close Bot.exitTrade 110 7200).pnl_percent = some 10 ∧
    ((110 - (100 : ℚ)) * 2) / 2 + 100 = 110 := by
  have h := C8_pnl_spec Bot.exitTrade 110 7200
    (by norm_num [Bot.exitTrade]) (by norm_num [Bot.exitTrade])
  refine ⟨?_, ?_, by norm_num⟩
  · rw [h.1]
    norm_num [Bot.exitTrade]
  · rw [h.2.1]
    norm_num [Bot.exitTrade]

end MexcAlphaBot
